import Mathlib

/-!
# Verification of the `squiggles` core algebra

Shallow embedding of the repository's numeric core: decimal rounding,
linear and quadratic polynomials (solve, solveInverse, derivative, roots,
extreme, monotonicity), intervals, 4x4 matrices (determinant, minor,
setRow, solveSystem), segment chunking, the cardinal characteristic
matrix, the `isMatrix4x4` guard, and the curve `solveWhere` dispatcher.

JavaScript numbers are modelled as exact rationals; the only operation in
the verified fragment that can leave the finite range is division, so
division results are tracked in an explicit type `JsNum` with `nan` and
signed-infinity values, mirroring IEEE semantics of `x / 0`.
-/

/-- Default precision (`PRECISION` in `util.ts`): 12 decimal digits. -/
def PRECISION : Nat := 12

/-- Round a rational to the nearest integer, half away from zero. -/
def roundHalfAway (q : ℚ) : ℤ :=
  if 0 ≤ q then ⌊q + 1/2⌋ else -⌊-q + 1/2⌋

/-- Modelled from the spec: `round(value, precision)` from `util.ts` (file not
in the snapshot) rounds to `precision` decimal digits half away from zero,
with the documented fast path returning the input unchanged when
`precision` equals the maximum precision 12. -/
def roundQ (q : ℚ) (precision : Nat) : ℚ :=
  if precision = PRECISION then q
  else (roundHalfAway (q * 10 ^ precision) : ℚ) / 10 ^ precision

/-- Modelled from the spec: `minMax` from `util.ts` (file not in the
snapshot) returns the pair of the smaller and the larger argument. -/
def minMax (a b : ℚ) : ℚ × ℚ := (min a b, max a b)

/-- A JavaScript number: a finite rational or one of the IEEE special
values. Inputs of the verified fragment are finite; specials arise only
from division. -/
inductive JsNum where
  | fin (q : ℚ)
  | nan
  | inf
  | ninf
deriving DecidableEq, Repr

/-- JavaScript division `a / b` for finite operands: finite when `b ≠ 0`,
otherwise `NaN` for `0 / 0` and a signed infinity for `±a / 0`. -/
def jdiv (a b : ℚ) : JsNum :=
  if b = 0 then
    if a = 0 then .nan else if 0 < a then .inf else .ninf
  else .fin (a / b)

/-- JavaScript subtraction extended to the special values. -/
def jsub : JsNum → JsNum → JsNum
  | .fin a, .fin b => .fin (a - b)
  | .nan, _ => .nan
  | _, .nan => .nan
  | .inf, .inf => .nan
  | .inf, _ => .inf
  | .ninf, .ninf => .nan
  | .ninf, _ => .ninf
  | .fin _, .inf => .ninf
  | .fin _, .ninf => .inf

/-- `round` lifted to JavaScript numbers: `NaN` and infinities are fixed
points of `Math.round`-based decimal rounding. -/
def jround (x : JsNum) (precision : Nat) : JsNum :=
  match x with
  | .fin q => .fin (roundQ q precision)
  | x => x

/-- JavaScript `a >= b` against a finite bound: false for `NaN`. -/
def jge (a : JsNum) (b : ℚ) : Bool :=
  match a with
  | .fin q => b ≤ q
  | .inf => true
  | _ => false

/-- JavaScript `a <= b` against a finite bound: false for `NaN`. -/
def jle (a : JsNum) (b : ℚ) : Bool :=
  match a with
  | .fin q => q ≤ b
  | .ninf => true
  | _ => false

/-- `[a, b].toSorted((x, y) => x - y)` on a two-element array per
ECMA-262: the pair is swapped exactly when the comparator is positive; a
`NaN` comparator result counts as zero and keeps the original order. -/
def jsortPair (a b : JsNum) : List JsNum :=
  match jsub a b with
  | .fin q => if 0 < q then [b, a] else [a, b]
  | .inf => [b, a]
  | _ => [a, b]

/-- `Math.sqrt` under the exact-rational model: the exact nonnegative
square root whenever the argument is a square of a rational, and `0`
otherwise. Every concrete evaluation below uses arguments with exact
rational square roots, and the universally quantified theorems do not
depend on the value returned on the remaining inputs. -/
def sqrtQ (q : ℚ) : ℚ :=
  if 0 ≤ q ∧ (Nat.sqrt q.num.toNat) ^ 2 = q.num.toNat ∧ (Nat.sqrt q.den) ^ 2 = q.den
  then (Nat.sqrt q.num.toNat : ℚ) / (Nat.sqrt q.den : ℚ)
  else 0

/-- The four-valued monotonicity classification. -/
inductive Monotonicity where
  | increasing
  | decreasing
  | constant
  | none
deriving DecidableEq, Repr

/-- Modelled from the spec: `guaranteedMonotonicityFromComparison` from
`monotonicity.ts` (file not in the snapshot): `increasing` when the end
value exceeds the start value, `decreasing` when it is below, `constant`
when they are equal. -/
def guaranteedMonotonicityFromComparison (ys ye : ℚ) : Monotonicity :=
  if ys < ye then .increasing
  else if ye < ys then .decreasing
  else .constant

namespace Linear

/-- A linear polynomial `c0 + c1 * x` with its precision. -/
structure LinearPolynomial where
  c0 : ℚ
  c1 : ℚ
  precision : Nat
deriving DecidableEq, Repr

/-- Modelled from the spec: `linear.make` from `linear.internal.ts` (file
not in the snapshot) stores both coefficients rounded to the instance's
precision. -/
def make (c0 c1 : ℚ) (precision : Nat := PRECISION) : LinearPolynomial :=
  ⟨roundQ c0 precision, roundQ c1 precision, precision⟩

/-- Modelled from the spec: `linear.solve(p, x) = round(c0 + c1 * x)`. -/
def solve (p : LinearPolynomial) (x : ℚ) : ℚ :=
  roundQ (p.c0 + p.c1 * x) p.precision

/-- Modelled from the spec: `linear.solveInverse(p, y)` returns the unique
root `(y - c0) / c1` (rounded) when `c1` is non-zero and none when
`c1 = 0`. -/
def solveInverse (p : LinearPolynomial) (y : ℚ) : Option ℚ :=
  if p.c1 = 0 then none else some (roundQ ((y - p.c0) / p.c1) p.precision)

/-- Modelled from the spec: `linear.monotonicity` classifies by the sign
of `c1`. -/
def monotonicity (p : LinearPolynomial) : Monotonicity :=
  if 0 < p.c1 then .increasing
  else if p.c1 < 0 then .decreasing
  else .constant

end Linear

/-- Closed interval with its precision. The field `iend` carries the
source's `end` attribute (`end` is reserved in Lean). Modelled from the
spec: `interval.make` (file not in the snapshot) fails unless
`start ≤ end`, so every constructed interval satisfies `start ≤ iend`;
the theorems below quantify over intervals accordingly. -/
structure IntervalQ where
  start : ℚ
  iend : ℚ
  precision : Nat
deriving DecidableEq, Repr

namespace IntervalQ

/-- Modelled from the spec: `interval.size = end - start`. -/
def size (i : IntervalQ) : ℚ := i.iend - i.start

/-- Modelled from the spec: `interval.contains(i, x, opts)` with both
inclusion flags. -/
def containsWith (i : IntervalQ) (x : ℚ) (includeStart includeEnd : Bool) : Bool :=
  (if includeStart then i.start ≤ x else i.start < x) &&
  (if includeEnd then x ≤ i.iend else x < i.iend)

/-- `interval.contains` with the default inclusive endpoints. -/
def contains (i : IntervalQ) (x : ℚ) : Bool :=
  containsWith i x true true

end IntervalQ

namespace Quadratic

/-- A quadratic polynomial `c0 + c1 * x + c2 * x ^ 2` with its precision
(`QuadraticPolynomialImpl`). -/
structure QuadraticPolynomial where
  c0 : ℚ
  c1 : ℚ
  c2 : ℚ
  precision : Nat
deriving DecidableEq, Repr

/-- `quadratic.make`: the constructor stores the coefficients rounded to
the instance's precision (core invariant of the data model). -/
def make (c0 c1 c2 : ℚ) (precision : Nat := PRECISION) : QuadraticPolynomial :=
  ⟨roundQ c0 precision, roundQ c1 precision, roundQ c2 precision, precision⟩

/-- `quadratic.solve(p, x) = round(c0 + x * c1 + x ^ 2 * c2)`. -/
def solve (p : QuadraticPolynomial) (x : ℚ) : ℚ :=
  roundQ (p.c0 + x * p.c1 + x ^ 2 * p.c2) p.precision

/-- The local `discriminant` of `quadratic.solveInverse`:
`c1 ^ 2 - 4 * c2 * (c0 - y)`. -/
def discriminant (p : QuadraticPolynomial) (y : ℚ) : ℚ :=
  p.c1 ^ 2 - 4 * p.c2 * (p.c0 - y)

/-- `quadratic.solveInverse(p, y)` exactly as in
`quadratic.internal.ts`: empty for a negative discriminant,
`[round(-c1 / (2 * c2))]` for a zero discriminant, otherwise the two
quadratic-formula values rounded and sorted with the comparator
`(a, b) => a - b`. There is no `c2 = 0` delegation, so the divisions are
by `2 * c2` even when it is zero. -/
def solveInverse (p : QuadraticPolynomial) (y : ℚ) : List JsNum :=
  if discriminant p y < 0 then []
  else if discriminant p y = 0 then
    [jround (jdiv (-p.c1) (2 * p.c2)) p.precision]
  else
    let sqrtDiscriminant := sqrtQ (discriminant p y)
    jsortPair
      (jround (jdiv (-p.c1 + sqrtDiscriminant) (2 * p.c2)) p.precision)
      (jround (jdiv (-p.c1 - sqrtDiscriminant) (2 * p.c2)) p.precision)

/-- `quadratic.derivative(p) = Linear.make(c1, 2 * c2, precision)`. -/
def derivative (p : QuadraticPolynomial) : Linear.LinearPolynomial :=
  Linear.make p.c1 (p.c2 * 2) p.precision

/-- `quadratic.roots(p, interval?)`: `solveInverse(p, 0)`, filtered to
`[min, max]` of the interval endpoints when an interval is given. -/
def roots (p : QuadraticPolynomial) (interval : Option IntervalQ) : List JsNum :=
  let rs := solveInverse p 0
  match interval with
  | Option.none => rs
  | Option.some i =>
    let mm := minMax i.start i.iend
    rs.filter fun root => jge root mm.1 && jle root mm.2

/-- `quadratic.extreme(p)`: the linear inverse of the derivative at 0,
with the nullish fallback `p.c2 === 0 ? null : 0`. -/
def extreme (p : QuadraticPolynomial) : Option ℚ :=
  match Linear.solveInverse (derivative p) 0 with
  | Option.some r => Option.some r
  | Option.none => if p.c2 = 0 then Option.none else Option.some 0

/-- `quadratic.monotonicity(p, i?)` exactly as in
`quadratic.internal.ts`: constant when `c1 = c2 = 0`; linear delegation
when `c2 = 0`; then constant for a size-zero interval, `none` when the
interval is absent or the extreme is strictly inside it, and otherwise
the comparison classifier on the endpoint evaluations. -/
def monotonicity (p : QuadraticPolynomial) (i : Option IntervalQ) : Monotonicity :=
  if p.c2 = 0 ∧ p.c1 = 0 then .constant
  else if p.c2 = 0 then Linear.monotonicity (Linear.make p.c0 p.c1 p.precision)
  else
    let e := (extreme p).getD 0
    match i with
    | Option.none => .none
    | Option.some i =>
      if IntervalQ.size i = 0 then .constant
      else if IntervalQ.containsWith i e false false then .none
      else guaranteedMonotonicityFromComparison (solve p i.start) (solve p i.iend)

end Quadratic

/-- The classified failure kinds used by the verified fragment. -/
inductive Failure where
  | SingularMatrix
  | InvalidChunking
  | NonMonotonicAxis
  | RootUnsolvable
deriving DecidableEq, Repr

namespace Matrix4

/-- A 4-component vector with its precision. -/
structure Vector4 where
  v0 : ℚ
  v1 : ℚ
  v2 : ℚ
  v3 : ℚ
  precision : Nat
deriving DecidableEq, Repr

/-- Modelled from the spec: the `vector4` constructor from
`vector4.internal.ts` (file not in the snapshot) stores its components
rounded to the instance's precision. -/
def vector4 (v0 v1 v2 v3 : ℚ) (precision : Nat := PRECISION) : Vector4 :=
  ⟨roundQ v0 precision, roundQ v1 precision, roundQ v2 precision,
    roundQ v3 precision, precision⟩

/-- Modelled from the spec: `components` returns the ordered component
sequence. -/
def components (v : Vector4) : List ℚ := [v.v0, v.v1, v.v2, v.v3]

/-- Modelled from the spec: `dot` is the rounded sum of componentwise
products, at the minimum of the operands' precisions. -/
def dot (a b : Vector4) : ℚ :=
  roundQ (a.v0 * b.v0 + a.v1 * b.v1 + a.v2 * b.v2 + a.v3 * b.v3)
    (min a.precision b.precision)

/-- A 3x3 matrix with its precision. -/
structure Matrix3x3 where
  m00 : ℚ
  m01 : ℚ
  m02 : ℚ
  m10 : ℚ
  m11 : ℚ
  m12 : ℚ
  m20 : ℚ
  m21 : ℚ
  m22 : ℚ
  precision : Nat
deriving DecidableEq, Repr

/-- Modelled from the spec: `matrix3x3.make` from `matrix3x3.internal.ts`
(file not in the snapshot) stores the row-major entries rounded to the
instance's precision. -/
def make3 (m00 m01 m02 m10 m11 m12 m20 m21 m22 : ℚ)
    (precision : Nat := PRECISION) : Matrix3x3 :=
  ⟨roundQ m00 precision, roundQ m01 precision, roundQ m02 precision,
    roundQ m10 precision, roundQ m11 precision, roundQ m12 precision,
    roundQ m20 precision, roundQ m21 precision, roundQ m22 precision,
    precision⟩

/-- Modelled from the spec: `matrix3x3.determinant` is the standard 3x3
determinant of the stored entries, rounded at the default precision. -/
def determinant3 (m : Matrix3x3) : ℚ :=
  roundQ
    (m.m00 * (m.m11 * m.m22 - m.m12 * m.m21) -
      m.m01 * (m.m10 * m.m22 - m.m12 * m.m20) +
      m.m02 * (m.m10 * m.m21 - m.m11 * m.m20))
    PRECISION

/-- A 4x4 matrix with its precision (`Matrix4x4Impl`), rounded entries. -/
structure Matrix4x4 where
  m00 : ℚ
  m01 : ℚ
  m02 : ℚ
  m03 : ℚ
  m10 : ℚ
  m11 : ℚ
  m12 : ℚ
  m13 : ℚ
  m20 : ℚ
  m21 : ℚ
  m22 : ℚ
  m23 : ℚ
  m30 : ℚ
  m31 : ℚ
  m32 : ℚ
  m33 : ℚ
  precision : Nat
deriving DecidableEq, Repr

/-- `matrix4x4.make`: the constructor rounds every entry to the
instance's precision. -/
def make (m00 m01 m02 m03 m10 m11 m12 m13 m20 m21 m22 m23 m30 m31 m32 m33 : ℚ)
    (precision : Nat := PRECISION) : Matrix4x4 :=
  ⟨roundQ m00 precision, roundQ m01 precision, roundQ m02 precision, roundQ m03 precision,
    roundQ m10 precision, roundQ m11 precision, roundQ m12 precision, roundQ m13 precision,
    roundQ m20 precision, roundQ m21 precision, roundQ m22 precision, roundQ m23 precision,
    roundQ m30 precision, roundQ m31 precision, roundQ m32 precision, roundQ m33 precision,
    precision⟩

/-- `toRows`: the four row vectors, at the matrix's precision. -/
def toRows (m : Matrix4x4) : List Vector4 :=
  [vector4 m.m00 m.m01 m.m02 m.m03 m.precision,
    vector4 m.m10 m.m11 m.m12 m.m13 m.precision,
    vector4 m.m20 m.m21 m.m22 m.m23 m.precision,
    vector4 m.m30 m.m31 m.m32 m.m33 m.precision]

/-- `toColumns`: the four column vectors, at the matrix's precision. -/
def toColumns (m : Matrix4x4) : List Vector4 :=
  [vector4 m.m00 m.m10 m.m20 m.m30 m.precision,
    vector4 m.m01 m.m11 m.m21 m.m31 m.precision,
    vector4 m.m02 m.m12 m.m22 m.m32 m.precision,
    vector4 m.m03 m.m13 m.m23 m.m33 m.precision]

/-- `fromRows(v0, v1, v2, v3)`: row-major construction at the minimum of
the vectors' precisions (no explicit precision is passed by `setRow`). -/
def fromRows (v0 v1 v2 v3 : Vector4) : Matrix4x4 :=
  make v0.v0 v0.v1 v0.v2 v0.v3 v1.v0 v1.v1 v1.v2 v1.v3
    v2.v0 v2.v1 v2.v2 v2.v3 v3.v0 v3.v1 v3.v2 v3.v3
    (min (min v0.precision v1.precision) (min v2.precision v3.precision))

/-- `setRow(m, row, v)`: `fromRows` of the row list with index `row`
replaced by `v`. -/
def setRow (m : Matrix4x4) (row : Nat) (v : Vector4) : Matrix4x4 :=
  let rows := (toRows m).set row v
  fromRows (rows.getD 0 v) (rows.getD 1 v) (rows.getD 2 v) (rows.getD 3 v)

/-- `minor(m, row, column)` exactly as in `matrix4x4.internal.ts`: the
source splices the COLUMN list at index `row` and each remaining
column's component list at index `column`, then reads the spliced
columns back as rows of the 3x3 result. -/
def minor (m : Matrix4x4) (row column : Nat) : Matrix3x3 :=
  let zero : Vector4 := vector4 0 0 0 0 m.precision
  let cols := (toColumns m).eraseIdx row
  let r0 := (components (cols.getD 0 zero)).eraseIdx column
  let r1 := (components (cols.getD 1 zero)).eraseIdx column
  let r2 := (components (cols.getD 2 zero)).eraseIdx column
  make3 (r0.getD 0 0) (r0.getD 1 0) (r0.getD 2 0)
    (r1.getD 0 0) (r1.getD 1 0) (r1.getD 2 0)
    (r2.getD 0 0) (r2.getD 1 0) (r2.getD 2 0) m.precision

/-- `determinant(m)`: the rounded alternating sum of the first-row
entries times the determinants of `minor(m, 0, j)`. -/
def determinant (m : Matrix4x4) : ℚ :=
  roundQ
    (m.m00 * determinant3 (minor m 0 0) - m.m01 * determinant3 (minor m 0 1) +
      m.m02 * determinant3 (minor m 0 2) - m.m03 * determinant3 (minor m 0 3))
    PRECISION

/-- `vectorProductLeft(m, v)`: the rows of `m` dotted with `v`. -/
def vectorProductLeft (m : Matrix4x4) (v : Vector4) : Vector4 :=
  let rows := toRows m
  let zero : Vector4 := vector4 0 0 0 0 m.precision
  vector4 (dot (rows.getD 0 zero) v) (dot (rows.getD 1 zero) v)
    (dot (rows.getD 2 zero) v) (dot (rows.getD 3 zero) v)
    (min m.precision v.precision)

/-- `solveSystem(m, v)` exactly as in `matrix4x4.internal.ts`: it
computes `1 / determinant(m)`, fails with `SingularMatrix` when that is
not finite, and otherwise returns the vector whose component `i` is
`determinant(setRow(m, i, v))` times the inverse determinant. -/
def solveSystem (m : Matrix4x4) (v : Vector4) : Except Failure Vector4 :=
  match jdiv 1 (determinant m) with
  | .fin inverseDeterminant =>
    .ok (vector4 (determinant (setRow m 0 v) * inverseDeterminant)
      (determinant (setRow m 1 v) * inverseDeterminant)
      (determinant (setRow m 2 v) * inverseDeterminant)
      (determinant (setRow m 3 v) * inverseDeterminant))
  | _ => .error .SingularMatrix

end Matrix4

namespace Splines

/-- Modelled from the spec: `toCubicScalars(seq, stride)` from the splines
module (implementation file not in the snapshot; its unit tests are in the
repository) fails with `InvalidChunking` when the sequence is shorter
than 4, the stride is outside `{1, 2, 3}`, or `(length - 4)` is not a
multiple of the stride; otherwise it returns the overlapping windows of
length 4 whose start indices advance by `stride`. -/
def toCubicScalars (seq : List ℚ) (stride : Nat) : Except Failure (List (List ℚ)) :=
  if seq.length < 4 ∨ (stride ≠ 1 ∧ stride ≠ 2 ∧ stride ≠ 3) ∨
      (seq.length - 4) % stride ≠ 0 then
    .error .InvalidChunking
  else
    .ok ((List.range ((seq.length - 4) / stride + 1)).map
      fun k => (seq.drop (k * stride)).take 4)

/-- `toBezierSegments`: the stride-3 specialization of `toCubicScalars`. -/
def toBezierSegments (seq : List ℚ) : Except Failure (List (List ℚ)) :=
  toCubicScalars seq 3

/-- `cardinal(a)` as pinned by the repository's unit test
`cardinal should return segments` (the implementation file is not in the
snapshot; the test asserts this exact row list for a variable `a`): the
rows carry the cubic coefficients ordered from degree 3 down to the
constant. -/
def cardinal (a : ℚ) : List (List ℚ) :=
  [[-a, 2 - a, a - 2, a],
    [2 * a, a - 3, 3 - 2 * a, -a],
    [-a, 0, a, 0],
    [0, 1, 0, 0]]

/-- The Cardinal(a) characteristic matrix exactly as the spec's section
4.9 table writes it, rows ordered `c0` to `c3`, for comparison with the
repository's `cardinal`. -/
def cardinalSpecRows (a : ℚ) : List (List ℚ) :=
  [[0, 1, 0, 0],
    [-a, 0, a, 0],
    [2 * a, a - 3, 3 - 2 * a, -a],
    [-a, 2 - a, a - 2, a]]

end Splines

/-- A JavaScript value as far as `typeof`-based guards can observe it:
`null`, `undefined`, booleans, (finite) numbers, strings, functions, and
plain objects carrying a set of field names. -/
inductive JSValue where
  | vNull
  | vUndefined
  | vBool (b : Bool)
  | vNum (q : ℚ)
  | vStr (s : String)
  | vFunc
  | vObj (fields : List String)
deriving DecidableEq, Repr

/-- The JavaScript `typeof` operator; `typeof null` is `"object"`. -/
def typeofJS : JSValue → String
  | .vNull => "object"
  | .vUndefined => "undefined"
  | .vBool _ => "boolean"
  | .vNum _ => "number"
  | .vStr _ => "string"
  | .vFunc => "function"
  | .vObj _ => "object"

/-- `isMatrix4x4(m)` exactly as in `matrix4x4.internal.ts`:
`typeof m === 'object'`, with no type-tag or structural check. -/
def isMatrix4x4 (m : JSValue) : Bool :=
  typeofJS m == "object"

namespace Curve

/-- Modelled from the spec: a per-axis view of a curve as produced by
`createCurveAxis` in `axis.ts` (file not in the snapshot): its
monotonicity classification over the parameter range, its parameter
domain, the inverse solver `solveT` returning the parameters that hit a
position, and the forward evaluator `solvePosition`. -/
structure CurveAxis where
  monotonicity : Monotonicity
  domain : IntervalQ
  solveT : ℚ → IntervalQ → List ℚ
  solvePosition : ℚ → ℚ

/-- A multi-axis curve: its axis keys and the per-key axis data. -/
structure CurveModel where
  axisKeys : List String
  axes : String → CurveAxis

/-- `solveWhere(axis, position, precision)` exactly as in `curve.ts`:
fail with `NonMonotonicAxis` unless the chosen axis's monotonicity
differs from `none`; take the first parameter returned by the axis's
`solveT` and fail with `RootUnsolvable` when there is none; otherwise
return the point holding the rounded requested position on the chosen
axis and every remaining axis evaluated at that parameter. -/
def solveWhere (c : CurveModel) (axis : String) (position : ℚ)
    (precision : Nat := 12) : Except Failure (List (String × ℚ)) :=
  let curveAxis := c.axes axis
  if curveAxis.monotonicity = .none then .error .NonMonotonicAxis
  else
    match (curveAxis.solveT position curveAxis.domain).head? with
    | Option.none => .error .RootUnsolvable
    | Option.some t =>
      .ok (c.axisKeys.map fun key =>
        (key,
          if key = axis then roundQ position precision
          else roundQ ((c.axes key).solvePosition t) precision))

/-- A concrete monotone axis used to instantiate the `solveWhere`
theorem: the identity polynomial chain on the unit parameter range. -/
def unitAxis : CurveAxis where
  monotonicity := .increasing
  domain := ⟨0, 1, 12⟩
  solveT := fun y _ => if 0 ≤ y ∧ y ≤ 1 then [y] else []
  solvePosition := fun t => t

/-- A concrete second axis (the doubling chain) for the same curve. -/
def doubleAxis : CurveAxis where
  monotonicity := .increasing
  domain := ⟨0, 1, 12⟩
  solveT := fun y _ => if 0 ≤ y ∧ y ≤ 2 then [y / 2] else []
  solvePosition := fun t => 2 * t

/-- A concrete two-axis curve (`x` the identity chain, `y` the doubling
chain) used to witness the `solveWhere` theorem. -/
def demoCurve : CurveModel where
  axisKeys := ["x", "y"]
  axes := fun key => if key = "y" then doubleAxis else unitAxis

end Curve

/-- The 4x4 identity matrix at the default precision, used as a concrete
probe for `solveSystem`. -/
def identityMatrix4 : Matrix4.Matrix4x4 :=
  Matrix4.make 1 0 0 0 0 1 0 0 0 0 1 0 0 0 0 1

/-! ## Rounding lemmas -/

theorem floor_half_q : ⌊(1 / 2 : ℚ)⌋ = 0 := by
  rw [Int.floor_eq_iff]
  · norm_num

theorem roundHalfAway_intCast (m : ℤ) : roundHalfAway (m : ℚ) = m := by
  unfold roundHalfAway
  by_cases h : (0 : ℚ) ≤ (m : ℚ)
  · rw [if_pos h, add_comm, Int.floor_add_int, floor_half_q, zero_add]
  · rw [if_neg h]
    have hm : -(m : ℚ) = ((-m : ℤ) : ℚ) := by push_cast; ring
    rw [hm, add_comm, Int.floor_add_int, floor_half_q, zero_add, neg_neg]

theorem roundQ_of_exists_int (q : ℚ) (p : ℕ) (h : ∃ m : ℤ, q * 10 ^ p = m) :
    roundQ q p = q := by
  unfold roundQ
  by_cases hp : p = PRECISION
  · rw [if_pos hp]
  · obtain ⟨m, hm⟩ := h
    have h10 : (10 : ℚ) ^ p ≠ 0 := by positivity
    rw [if_neg hp, hm, roundHalfAway_intCast, ← hm, mul_div_assoc,
      div_self h10, mul_one]

theorem roundQ_mul_pow_exists_int (q : ℚ) (p : ℕ) (hp : p ≠ PRECISION) :
    ∃ m : ℤ, roundQ q p * 10 ^ p = m := by
  refine ⟨roundHalfAway (q * 10 ^ p), ?_⟩
  have h10 : (10 : ℚ) ^ p ≠ 0 := by positivity
  rw [roundQ, if_neg hp, div_mul_cancel₀ _ h10]

theorem roundQ_roundQ (q : ℚ) (p : ℕ) : roundQ (roundQ q p) p = roundQ q p := by
  by_cases hp : p = PRECISION
  · rw [roundQ, if_pos hp]
  · exact roundQ_of_exists_int _ _ (roundQ_mul_pow_exists_int q p hp)

theorem roundQ_roundQ_mul_two (q : ℚ) (p : ℕ) :
    roundQ (roundQ q p * 2) p = roundQ q p * 2 := by
  by_cases hp : p = PRECISION
  · rw [roundQ, if_pos hp]
  · obtain ⟨m, hm⟩ := roundQ_mul_pow_exists_int q p hp
    refine roundQ_of_exists_int _ _ ⟨2 * m, ?_⟩
    push_cast
    rw [← hm]
    ring

theorem roundQ_zero (p : ℕ) : roundQ 0 p = 0 := by
  unfold roundQ roundHalfAway
  by_cases hp : p = PRECISION
  · rw [if_pos hp]
  · rw [if_neg hp, zero_mul, if_pos le_rfl, zero_add, floor_half_q]
    norm_num

/-! ## Square-root lemmas -/

theorem sqrtQ_sq (s : ℚ) (hs : 0 ≤ s) : sqrtQ (s ^ 2) = s := by
  have hn : (0 : ℤ) ≤ s.num := Rat.num_nonneg.mpr hs
  have hnum : (s ^ 2).num = s.num ^ 2 := rfl
  have hden : (s ^ 2).den = s.den ^ 2 := rfl
  have htn : (s.num ^ 2).toNat = s.num.toNat ^ 2 := by
    rcases Int.eq_ofNat_of_zero_le hn with ⟨n, hn'⟩
    rw [hn', ← Nat.cast_pow, Int.toNat_natCast, Int.toNat_natCast]
  have hq : ((s.num.toNat : ℕ) : ℚ) = (s.num : ℚ) := by
    exact_mod_cast congrArg (fun z : ℤ => (z : ℚ)) (Int.toNat_of_nonneg hn)
  unfold sqrtQ
  rw [if_pos]
  · rw [hnum, hden, htn, pow_two, Nat.sqrt_eq, pow_two, Nat.sqrt_eq, hq,
      Rat.num_div_den]
  · refine ⟨sq_nonneg s, ?_, ?_⟩
    · rw [hnum, htn, pow_two s.num.toNat, Nat.sqrt_eq]
      exact pow_two _
    · rw [hden, pow_two s.den, Nat.sqrt_eq]
      exact pow_two _

theorem sqrtQ_one : sqrtQ 1 = 1 := by
  have h := sqrtQ_sq 1 (by norm_num)
  simpa using h

theorem sqrtQ_inv25 : sqrtQ (1/25) = 1/5 := by
  have h := sqrtQ_sq (1/5) (by norm_num)
  norm_num at h
  exact h

/-! ## Claim theorems -/

/-- Claim C1 (code bug evidence): with `c2 = 0` the quadratic
`solveInverse` does NOT delegate to linear inversion. For
`p = make(0, 1, 0)` and `y = 1` the discriminant is `c1 ^ 2 = 1 > 0` and
both quadratic-formula divisions are by `2 * c2 = 0`, so the code returns
`[NaN, -Infinity]` instead of the linear root `[1]`; for
`p = make(0, 0, 0)` and `y = 5` the discriminant is `0` and the code
returns `[NaN]` instead of no roots. -/
theorem quadratic_solveInverse_no_linear_delegation :
    Quadratic.solveInverse (Quadratic.make 0 1 0) 1 = [JsNum.nan, JsNum.ninf] ∧
    Quadratic.solveInverse (Quadratic.make 0 0 0) 5 = [JsNum.nan] := by
  have hm : Quadratic.make 0 1 0 = ⟨0, 1, 0, 12⟩ := by
    simp [Quadratic.make, roundQ, PRECISION]
  have hm0 : Quadratic.make 0 0 0 = ⟨0, 0, 0, 12⟩ := by
    simp [Quadratic.make, roundQ, PRECISION]
  have hd : Quadratic.discriminant ⟨0, 1, 0, 12⟩ 1 = 1 := by
    norm_num [Quadratic.discriminant]
  have hd0 : Quadratic.discriminant ⟨0, 0, 0, 12⟩ 5 = 0 := by
    norm_num [Quadratic.discriminant]
  constructor
  · rw [hm]
    norm_num [Quadratic.solveInverse, hd, sqrtQ_one, jdiv, jround, jsub,
      jsortPair]
  · rw [hm0]
    norm_num [Quadratic.solveInverse, hd0, jdiv, jround]

/-- Claim C2 counterexample: the two roots returned for a positive
discriminant are NOT always strictly ascending. For
`p = make(0, 0, 1, precision 0)` and `y = 1/100` the discriminant is
`1/25 > 0`, but both roots `±1/10` round (at precision 0) to `0`, so the
code returns the two equal entries `[0, 0]`. -/
theorem quadratic_solveInverse_two_roots_can_collapse :
    0 < Quadratic.discriminant (Quadratic.make 0 0 1 0) (1/100) ∧
    Quadratic.solveInverse (Quadratic.make 0 0 1 0) (1/100) =
      [JsNum.fin 0, JsNum.fin 0] := by
  have hm : Quadratic.make 0 0 1 0 = ⟨0, 0, 1, 0⟩ := by
    norm_num [Quadratic.make, roundQ, PRECISION, roundHalfAway]
  have hd : Quadratic.discriminant ⟨0, 0, 1, 0⟩ (1/100) = 1/25 := by
    norm_num [Quadratic.discriminant]
  constructor
  · rw [hm, hd]
    norm_num
  · rw [hm]
    rw [show Quadratic.solveInverse ⟨0, 0, 1, 0⟩ (1/100) =
      (if Quadratic.discriminant ⟨0, 0, 1, 0⟩ (1/100) < 0 then [] else
        if Quadratic.discriminant ⟨0, 0, 1, 0⟩ (1/100) = 0 then
          [jround (jdiv (-(0:ℚ)) (2 * 1)) 0]
        else jsortPair
          (jround (jdiv (-0 + sqrtQ (Quadratic.discriminant ⟨0, 0, 1, 0⟩ (1/100))) (2 * 1)) 0)
          (jround (jdiv (-0 - sqrtQ (Quadratic.discriminant ⟨0, 0, 1, 0⟩ (1/100))) (2 * 1)) 0))
      from rfl]
    rw [hd]
    norm_num [sqrtQ_inv25, jdiv, jround, jsub, jsortPair, roundQ, PRECISION,
      roundHalfAway]

/-- Claim C2 (amended): for `c2 ≠ 0` and discriminant
`D = c1 ^ 2 - 4 * c2 * (c0 - y)`, `solveInverse` returns no roots when
`D < 0`, exactly the single rounded root `-c1 / (2 * c2)` when `D = 0`,
and exactly the two rounded quadratic-formula roots in ascending — not
necessarily strictly ascending — order when `D > 0`. -/
theorem quadratic_solveInverse_discriminant_cases
    (p : Quadratic.QuadraticPolynomial) (y : ℚ) (h2 : p.c2 ≠ 0) :
    (Quadratic.discriminant p y < 0 → Quadratic.solveInverse p y = []) ∧
    (Quadratic.discriminant p y = 0 →
      Quadratic.solveInverse p y =
        [JsNum.fin (roundQ (-p.c1 / (2 * p.c2)) p.precision)]) ∧
    (0 < Quadratic.discriminant p y →
      Quadratic.solveInverse p y =
        [JsNum.fin (min
            (roundQ ((-p.c1 + sqrtQ (Quadratic.discriminant p y)) / (2 * p.c2)) p.precision)
            (roundQ ((-p.c1 - sqrtQ (Quadratic.discriminant p y)) / (2 * p.c2)) p.precision)),
          JsNum.fin (max
            (roundQ ((-p.c1 + sqrtQ (Quadratic.discriminant p y)) / (2 * p.c2)) p.precision)
            (roundQ ((-p.c1 - sqrtQ (Quadratic.discriminant p y)) / (2 * p.c2)) p.precision))]) := by
  have h2' : 2 * p.c2 ≠ 0 := by
    intro h
    exact h2 (by linarith [mul_eq_zero.mp h])
  refine ⟨fun h => ?_, fun h => ?_, fun h => ?_⟩
  · simp [Quadratic.solveInverse, h]
  · simp only [Quadratic.solveInverse, h, lt_irrefl, if_neg, if_pos, if_false,
      if_true]
    simp [jdiv, h2', jround]
  · have hne : ¬ Quadratic.discriminant p y < 0 := not_lt.mpr (le_of_lt h)
    have hne0 : ¬ Quadratic.discriminant p y = 0 := ne_of_gt h
    simp only [Quadratic.solveInverse, if_neg hne, if_neg hne0]
    simp only [jdiv, if_neg h2', jround]
    set r1 := roundQ ((-p.c1 + sqrtQ (Quadratic.discriminant p y)) / (2 * p.c2))
      p.precision with hr1
    set r2 := roundQ ((-p.c1 - sqrtQ (Quadratic.discriminant p y)) / (2 * p.c2))
      p.precision with hr2
    simp only [jsortPair, jsub]
    rcases le_or_lt r1 r2 with hle | hlt
    · rw [if_neg (by simp; linarith), min_eq_left hle, max_eq_right hle]
    · rw [if_pos (by simp; linarith), min_eq_right (le_of_lt hlt),
        max_eq_left (le_of_lt hlt)]

/-- Claim C2 witness: for `p = make(0, 1, 2)` and `y = 0` the
discriminant is `1 > 0` and the theorem yields the repository's own test
vector `[-0.5, 0]`. -/
theorem quadratic_solveInverse_discriminant_cases_witness :
    (Quadratic.make 0 1 2).c2 ≠ 0 ∧
    Quadratic.solveInverse (Quadratic.make 0 1 2) 0 =
      [JsNum.fin (-(1/2)), JsNum.fin 0] := by
  have h2 : (Quadratic.make 0 1 2).c2 ≠ 0 := by
    norm_num [Quadratic.make, roundQ, PRECISION]
  have hpos : 0 < Quadratic.discriminant (Quadratic.make 0 1 2) 0 := by
    norm_num [Quadratic.discriminant, Quadratic.make, roundQ, PRECISION]
  refine ⟨h2, ((quadratic_solveInverse_discriminant_cases
    (Quadratic.make 0 1 2) 0 h2).2.2 hpos).trans ?_⟩
  norm_num [Quadratic.make, Quadratic.discriminant, roundQ, PRECISION,
    sqrtQ_one]

/-- Claim C3 counterexample: for `p = make(0, 1, 0)` (so `c1 ≠ 0` and
`c2 = 0`) the code returns `null`, not the claimed `0`: the linear
inverse of the derivative is nullish and the fallback
`p.c2 === 0 ? null : 0` then yields `null` because `c2 = 0`. -/
theorem quadratic_extreme_zero_c2_nonzero_c1_is_none :
    (Quadratic.make 0 1 0).c1 ≠ 0 ∧ (Quadratic.make 0 1 0).c2 = 0 ∧
    Quadratic.extreme (Quadratic.make 0 1 0) = Option.none := by
  have hm : Quadratic.make 0 1 0 = ⟨0, 1, 0, 12⟩ := by
    simp [Quadratic.make, roundQ, PRECISION]
  refine ⟨by rw [hm]; norm_num, by rw [hm], ?_⟩
  rw [hm]
  norm_num [Quadratic.extreme, Quadratic.derivative, Linear.make,
    Linear.solveInverse, roundQ, PRECISION]

/-- Claim C3 (amended): `extreme(p)` equals the rounded root
`-c1 / (2 * c2)` of the derivative when `c2` is non-zero, and equals
`null` whenever `c2 = 0` — also when `c1` is non-zero; the `0` branch of
the fallback is unreachable. -/
theorem quadratic_extreme_cases (p : Quadratic.QuadraticPolynomial)
    (hp : Quadratic.make p.c0 p.c1 p.c2 p.precision = p) :
    (p.c2 ≠ 0 →
      Quadratic.extreme p = some (roundQ (-p.c1 / (2 * p.c2)) p.precision)) ∧
    (p.c2 = 0 → Quadratic.extreme p = Option.none) := by
  have hc1 : roundQ p.c1 p.precision = p.c1 := by
    have h := congrArg Quadratic.QuadraticPolynomial.c1 hp
    simpa [Quadratic.make] using h
  have hc2 : roundQ p.c2 p.precision = p.c2 := by
    have h := congrArg Quadratic.QuadraticPolynomial.c2 hp
    simpa [Quadratic.make] using h
  have hc2two : roundQ (p.c2 * 2) p.precision = p.c2 * 2 := by
    conv_lhs => rw [← hc2]
    rw [roundQ_roundQ_mul_two, hc2]
  have hder : Quadratic.derivative p = ⟨p.c1, p.c2 * 2, p.precision⟩ := by
    simp [Quadratic.derivative, Linear.make, hc1, hc2two]
  constructor
  · intro h2
    have h2' : ¬ p.c2 * 2 = 0 := by
      intro h
      rcases mul_eq_zero.mp h with h | h
      · exact h2 h
      · norm_num at h
    rw [Quadratic.extreme, hder]
    simp only [Linear.solveInverse, if_neg h2']
    congr 1
    congr 1
    ring
  · intro h2
    rw [Quadratic.extreme, hder]
    simp [Linear.solveInverse, h2]

/-- Claim C3 witness: for `p = make(0, 1, 2)` the extreme is the
derivative's root `-1/4`. -/
theorem quadratic_extreme_cases_witness :
    (Quadratic.make 0 1 2).c2 ≠ 0 ∧
    Quadratic.extreme (Quadratic.make 0 1 2) = some (-(1/4)) := by
  have hp : Quadratic.make (Quadratic.make 0 1 2).c0 (Quadratic.make 0 1 2).c1
      (Quadratic.make 0 1 2).c2 (Quadratic.make 0 1 2).precision =
      Quadratic.make 0 1 2 := by
    norm_num [Quadratic.make, roundQ, PRECISION]
  have h2 : (Quadratic.make 0 1 2).c2 ≠ 0 := by
    norm_num [Quadratic.make, roundQ, PRECISION]
  exact ⟨h2, ((quadratic_extreme_cases (Quadratic.make 0 1 2) hp).1 h2).trans
    (by norm_num [Quadratic.make, roundQ, PRECISION])⟩

/-- Claim C4: `monotonicity(p, i?)` returns `constant` when
`c1 = c2 = 0`; delegates to linear monotonicity when `c2 = 0`; returns
`constant` when the interval has size 0; returns `none` when the
interval is absent or the extreme lies strictly inside it; and otherwise
classifies by comparing `solve(p, i.start)` with `solve(p, i.end)` —
`increasing` when the end value is larger, `decreasing` when smaller,
`constant` when equal. -/
theorem quadratic_monotonicity_cases (p : Quadratic.QuadraticPolynomial)
    (i : Option IntervalQ) :
    (p.c1 = 0 ∧ p.c2 = 0 → Quadratic.monotonicity p i = .constant) ∧
    (p.c2 = 0 → Quadratic.monotonicity p i =
      Linear.monotonicity (Linear.make p.c0 p.c1 p.precision)) ∧
    (∀ j, p.c2 ≠ 0 → i = some j → IntervalQ.size j = 0 →
      Quadratic.monotonicity p i = .constant) ∧
    (p.c2 ≠ 0 → i = Option.none → Quadratic.monotonicity p i = .none) ∧
    (∀ j, p.c2 ≠ 0 → i = some j → IntervalQ.size j ≠ 0 →
      IntervalQ.containsWith j ((Quadratic.extreme p).getD 0) false false = true →
      Quadratic.monotonicity p i = .none) ∧
    (∀ j, p.c2 ≠ 0 → i = some j → IntervalQ.size j ≠ 0 →
      IntervalQ.containsWith j ((Quadratic.extreme p).getD 0) false false = false →
      Quadratic.monotonicity p i =
        if Quadratic.solve p j.start < Quadratic.solve p j.iend then .increasing
        else if Quadratic.solve p j.iend < Quadratic.solve p j.start then .decreasing
        else .constant) := by
  refine ⟨fun h => ?_, fun h => ?_, fun j h2 hi hs => ?_, fun h2 hi => ?_,
    fun j h2 hi hs hc => ?_, fun j h2 hi hs hc => ?_⟩
  · simp [Quadratic.monotonicity, h.1, h.2]
  · by_cases h1 : p.c1 = 0
    · simp [Quadratic.monotonicity, h, h1, Linear.monotonicity, Linear.make,
        roundQ_zero]
    · simp [Quadratic.monotonicity, h, h1]
  · subst hi
    simp [Quadratic.monotonicity, h2, hs]
  · subst hi
    simp [Quadratic.monotonicity, h2]
  · subst hi
    simp [Quadratic.monotonicity, h2, hs, hc]
  · subst hi
    simp [Quadratic.monotonicity, h2, hs, hc,
      guaranteedMonotonicityFromComparison]

/-- Claim C4 witness: `p = make(0, 1, 2)` over the interval `[0, 1]` is
increasing (matching the repository's test). -/
theorem quadratic_monotonicity_cases_witness :
    (Quadratic.make 0 1 2).c2 ≠ 0 ∧
    Quadratic.monotonicity (Quadratic.make 0 1 2) (some ⟨0, 1, 12⟩) =
      .increasing := by
  have h2 : (Quadratic.make 0 1 2).c2 ≠ 0 := by
    norm_num [Quadratic.make, roundQ, PRECISION]
  have hs : IntervalQ.size ⟨0, 1, 12⟩ ≠ (0:ℚ) := by
    norm_num [IntervalQ.size]
  have hc : IntervalQ.containsWith ⟨0, 1, 12⟩
      ((Quadratic.extreme (Quadratic.make 0 1 2)).getD 0) false false = false := by
    norm_num [Quadratic.extreme, Quadratic.derivative, Linear.make,
      Linear.solveInverse, Quadratic.make, roundQ, PRECISION,
      IntervalQ.containsWith]
  refine ⟨h2, ((quadratic_monotonicity_cases (Quadratic.make 0 1 2)
    (some ⟨0, 1, 12⟩)).2.2.2.2.2 ⟨0, 1, 12⟩ h2 rfl hs hc).trans ?_⟩
  norm_num [Quadratic.solve, Quadratic.make, roundQ, PRECISION]

/-- Claim C10: `roots(p)` equals `solveInverse(p, 0)`, and `roots(p, i)`
equals that root sequence filtered to the values between
`min(i.start, i.end)` and `max(i.start, i.end)`, both endpoints
inclusive, in the original (ascending) order. -/
theorem quadratic_roots_spec (p : Quadratic.QuadraticPolynomial)
    (i : IntervalQ) :
    Quadratic.roots p Option.none = Quadratic.solveInverse p 0 ∧
    Quadratic.roots p (Option.some i) = (Quadratic.solveInverse p 0).filter
      (fun r => jge r (min i.start i.iend) && jle r (max i.start i.iend)) := by
  constructor
  · rfl
  · simp [Quadratic.roots, minMax]

/-- Claim C5 counterexample: `solveSystem` does not return a solution of
`M * x = v`. For the identity matrix and `v = (0, 1, 0, 0)` it succeeds
with `x = (-1, 1, 0, 0)` (because it replaces ROWS, not columns, and its
`minor`/`determinant` splice columns by the row index), yet
`M * x = (-1, 1, 0, 0) ≠ v`. -/
theorem solveSystem_identity_not_cramer :
    Matrix4.solveSystem identityMatrix4 (Matrix4.vector4 0 1 0 0) =
      .ok (Matrix4.vector4 (-1) 1 0 0) ∧
    Matrix4.vectorProductLeft identityMatrix4 (Matrix4.vector4 (-1) 1 0 0) ≠
      Matrix4.vector4 0 1 0 0 := by
  constructor
  · norm_num [identityMatrix4, Matrix4.solveSystem, Matrix4.determinant,
      Matrix4.determinant3, Matrix4.minor, Matrix4.toColumns, Matrix4.toRows,
      Matrix4.components, Matrix4.make3, Matrix4.make, Matrix4.vector4,
      Matrix4.setRow, Matrix4.fromRows, roundQ, PRECISION, List.eraseIdx,
      jdiv]
  · norm_num [identityMatrix4, Matrix4.vectorProductLeft, Matrix4.dot,
      Matrix4.toRows, Matrix4.make, Matrix4.vector4, roundQ, PRECISION]

/-- Claim C5 (amended): `solveSystem(M, v)` fails with `SingularMatrix`
exactly when `determinant(M) = 0` (equivalently, `1 / determinant(M)` is
not finite), and otherwise returns the vector whose component `i` is
`determinant(setRow(M, i, v)) * (1 / determinant(M))` — Cramer's rule
applied along rows; this does not in general satisfy `M * x = v`. -/
theorem solveSystem_failure_and_row_cramer (m : Matrix4.Matrix4x4)
    (v : Matrix4.Vector4) :
    (Matrix4.solveSystem m v = .error .SingularMatrix ↔
      Matrix4.determinant m = 0) ∧
    (Matrix4.determinant m ≠ 0 →
      Matrix4.solveSystem m v = .ok (Matrix4.vector4
        (Matrix4.determinant (Matrix4.setRow m 0 v) * (1 / Matrix4.determinant m))
        (Matrix4.determinant (Matrix4.setRow m 1 v) * (1 / Matrix4.determinant m))
        (Matrix4.determinant (Matrix4.setRow m 2 v) * (1 / Matrix4.determinant m))
        (Matrix4.determinant (Matrix4.setRow m 3 v) * (1 / Matrix4.determinant m)))) := by
  refine ⟨⟨fun h => ?_, fun h => ?_⟩, fun h => ?_⟩
  · by_contra hd
    simp [Matrix4.solveSystem, jdiv, hd] at h
  · simp [Matrix4.solveSystem, jdiv, h]
  · simp [Matrix4.solveSystem, jdiv, h]

/-- Claim C5 witness: the identity matrix has non-zero determinant and
the theorem's success equation applies to it. -/
theorem solveSystem_failure_and_row_cramer_witness :
    Matrix4.determinant identityMatrix4 ≠ 0 ∧
    Matrix4.solveSystem identityMatrix4 (Matrix4.vector4 0 1 0 0) =
      .ok (Matrix4.vector4
        (Matrix4.determinant (Matrix4.setRow identityMatrix4 0 (Matrix4.vector4 0 1 0 0)) *
          (1 / Matrix4.determinant identityMatrix4))
        (Matrix4.determinant (Matrix4.setRow identityMatrix4 1 (Matrix4.vector4 0 1 0 0)) *
          (1 / Matrix4.determinant identityMatrix4))
        (Matrix4.determinant (Matrix4.setRow identityMatrix4 2 (Matrix4.vector4 0 1 0 0)) *
          (1 / Matrix4.determinant identityMatrix4))
        (Matrix4.determinant (Matrix4.setRow identityMatrix4 3 (Matrix4.vector4 0 1 0 0)) *
          (1 / Matrix4.determinant identityMatrix4))) := by
  have hdet : Matrix4.determinant identityMatrix4 ≠ 0 := by
    norm_num [identityMatrix4, Matrix4.determinant, Matrix4.determinant3,
      Matrix4.minor, Matrix4.toColumns, Matrix4.components, Matrix4.make3,
      Matrix4.make, Matrix4.vector4, roundQ, PRECISION, List.eraseIdx]
  exact ⟨hdet, (solveSystem_failure_and_row_cramer identityMatrix4
    (Matrix4.vector4 0 1 0 0)).2 hdet⟩

/-- Claim C6: `toCubicScalars(seq, stride)` fails with `InvalidChunking`
exactly when the sequence is shorter than 4, the stride is outside
`{1, 2, 3}`, or `(length - 4)` is not a multiple of the stride;
otherwise it returns the overlapping windows of length 4 whose start
indices advance by `stride`, in order; and
`toBezierSegments([0..6]) = [[0,1,2,3],[3,4,5,6]]`. -/
theorem toCubicScalars_spec (seq : List ℚ) (stride : ℕ) :
    (Splines.toCubicScalars seq stride = .error .InvalidChunking ↔
      (seq.length < 4 ∨ (stride ≠ 1 ∧ stride ≠ 2 ∧ stride ≠ 3) ∨
        (seq.length - 4) % stride ≠ 0)) ∧
    (¬ (seq.length < 4 ∨ (stride ≠ 1 ∧ stride ≠ 2 ∧ stride ≠ 3) ∨
        (seq.length - 4) % stride ≠ 0) →
      Splines.toCubicScalars seq stride =
        .ok ((List.range ((seq.length - 4) / stride + 1)).map
          fun k => (seq.drop (k * stride)).take 4)) ∧
    Splines.toBezierSegments [0, 1, 2, 3, 4, 5, 6] =
      .ok [[0, 1, 2, 3], [3, 4, 5, 6]] := by
  refine ⟨⟨fun h => ?_, fun h => ?_⟩, fun h => ?_, ?_⟩
  · by_contra hc
    simp [Splines.toCubicScalars, hc] at h
  · simp [Splines.toCubicScalars, h]
  · simp [Splines.toCubicScalars, h]
  · have hlen : ([(0:ℚ), 1, 2, 3, 4, 5, 6]).length = 7 := by simp
    norm_num [Splines.toBezierSegments, Splines.toCubicScalars, hlen,
      List.range_succ]

/-- Claim C6 witness: the stride-1 chunking of `[0, 1, 2, 3, 4]` is
well-formed and yields the two overlapping windows of the repository's
test. -/
theorem toCubicScalars_spec_witness :
    ¬ (([(0:ℚ), 1, 2, 3, 4]).length < 4 ∨
      ((1:ℕ) ≠ 1 ∧ (1:ℕ) ≠ 2 ∧ (1:ℕ) ≠ 3) ∨
      (([(0:ℚ), 1, 2, 3, 4]).length - 4) % 1 ≠ 0) ∧
    Splines.toCubicScalars [0, 1, 2, 3, 4] 1 =
      .ok [[0, 1, 2, 3], [1, 2, 3, 4]] := by
  have hcond : ¬ (([(0:ℚ), 1, 2, 3, 4]).length < 4 ∨
      ((1:ℕ) ≠ 1 ∧ (1:ℕ) ≠ 2 ∧ (1:ℕ) ≠ 3) ∨
      (([(0:ℚ), 1, 2, 3, 4]).length - 4) % 1 ≠ 0) := by
    norm_num
  refine ⟨hcond, ((toCubicScalars_spec [0, 1, 2, 3, 4] 1).2.1 hcond).trans ?_⟩
  norm_num [List.range_succ]

/-- Claim C7 counterexample: `cardinal(0.5)` does not equal the spec's
section 4.9 matrix row-for-row — its first row is
`[-0.5, 1.5, -1.5, 0.5]`, not `[0, 1, 0, 0]`. -/
theorem cardinal_first_row_differs_from_spec :
    Splines.cardinal (1/2) ≠ Splines.cardinalSpecRows (1/2) ∧
    (Splines.cardinal (1/2)).headD [] ≠ [0, 1, 0, 0] := by
  constructor
  · norm_num [Splines.cardinal, Splines.cardinalSpecRows]
  · norm_num [Splines.cardinal]

/-- Claim C7 (amended): for every tension `a`, `cardinal(a)` returns
exactly the rows of the spec's section 4.9 Cardinal(a) matrix in reverse
order (the rows carry the coefficients from degree 3 down to degree 0). -/
theorem cardinal_reverses_spec_rows (a : ℚ) :
    Splines.cardinal a = (Splines.cardinalSpecRows a).reverse := by
  simp [Splines.cardinal, Splines.cardinalSpecRows]

/-- Claim C9: `isMatrix4x4(v)` is true exactly when `typeof v` is
`"object"` — hence true for `null` and for any object regardless of its
fields — and false for every non-object value; there is no type-tag or
structural check. -/
theorem isMatrix4x4_typeof_only :
    (∀ v : JSValue, isMatrix4x4 v = true ↔ typeofJS v = "object") ∧
    isMatrix4x4 JSValue.vNull = true ∧
    (∀ fields, isMatrix4x4 (JSValue.vObj fields) = true) ∧
    isMatrix4x4 JSValue.vUndefined = false ∧
    (∀ b, isMatrix4x4 (JSValue.vBool b) = false) ∧
    (∀ q, isMatrix4x4 (JSValue.vNum q) = false) ∧
    (∀ s, isMatrix4x4 (JSValue.vStr s) = false) ∧
    isMatrix4x4 JSValue.vFunc = false := by
  refine ⟨fun v => ?_, rfl, fun _ => rfl, rfl, fun _ => rfl, fun _ => rfl,
    fun _ => rfl, rfl⟩
  unfold isMatrix4x4
  simp

/-- Claim C8: `solveWhere(axis, position)` fails with `NonMonotonicAxis`
exactly when the chosen axis's monotonicity is `none`; given a monotone
axis whose `solveT` returns exactly the parameters in `[0, 1]` hitting
the position (the spec-modelled inverse), it fails with `RootUnsolvable`
exactly when no such parameter exists; and on success it returns the
requested position on the chosen axis and every remaining axis
evaluated (rounded) at the first parameter found. -/
theorem solveWhere_spec (c : Curve.CurveModel) (axis : String) (position : ℚ)
    (hspec : (c.axes axis).solveT position (c.axes axis).domain = [] ↔
      ¬ ∃ t, 0 ≤ t ∧ t ≤ 1 ∧ (c.axes axis).solvePosition t = position) :
    (Curve.solveWhere c axis position = .error .NonMonotonicAxis ↔
      (c.axes axis).monotonicity = .none) ∧
    ((c.axes axis).monotonicity ≠ .none →
      (Curve.solveWhere c axis position = .error .RootUnsolvable ↔
        ¬ ∃ t, 0 ≤ t ∧ t ≤ 1 ∧ (c.axes axis).solvePosition t = position)) ∧
    (∀ t ts, (c.axes axis).monotonicity ≠ .none →
      (c.axes axis).solveT position (c.axes axis).domain = t :: ts →
      Curve.solveWhere c axis position = .ok (c.axisKeys.map fun key =>
        (key, if key = axis then roundQ position 12
          else roundQ ((c.axes key).solvePosition t) 12))) := by
  refine ⟨?_, fun hm => ?_, fun t ts hm hl => ?_⟩
  · constructor
    · intro h
      by_contra hm
      cases hl : (c.axes axis).solveT position (c.axes axis).domain with
      | nil => simp [Curve.solveWhere, hm, hl] at h
      | cons t ts => simp [Curve.solveWhere, hm, hl] at h
    · intro hm
      simp [Curve.solveWhere, hm]
  · cases hl : (c.axes axis).solveT position (c.axes axis).domain with
    | nil =>
      simp only [Curve.solveWhere, if_neg hm, hl, List.head?]
      exact ⟨fun _ => hspec.mp hl, fun _ => by trivial⟩
    | cons t ts =>
      constructor
      · intro h
        simp [Curve.solveWhere, hm, hl] at h
      · intro h
        exact absurd (hspec.mpr h) (by simp [hl])
  · simp [Curve.solveWhere, hm, hl]

/-- Claim C8 witness: on the two-axis demo curve, solving the identity
axis `x` for position `1/2` succeeds and evaluates the remaining axis
`y` (the doubling chain) at the found parameter, giving `1`. -/
theorem solveWhere_spec_witness :
    Curve.solveWhere Curve.demoCurve "x" (1/2) =
      .ok [("x", 1/2), ("y", 1)] := by
  have hax : Curve.demoCurve.axes "x" = Curve.unitAxis := by
    simp [Curve.demoCurve]
  have hl : (Curve.demoCurve.axes "x").solveT (1/2)
      (Curve.demoCurve.axes "x").domain = [1/2] := by
    rw [hax]
    norm_num [Curve.unitAxis]
  have hm : (Curve.demoCurve.axes "x").monotonicity ≠ .none := by
    rw [hax]
    simp [Curve.unitAxis]
  have hspec : (Curve.demoCurve.axes "x").solveT (1/2)
      (Curve.demoCurve.axes "x").domain = [] ↔
      ¬ ∃ t, 0 ≤ t ∧ t ≤ 1 ∧ (Curve.demoCurve.axes "x").solvePosition t = 1/2 := by
    rw [hl]
    constructor
    · intro h
      exact absurd h (by simp)
    · intro h
      refine absurd ⟨1/2, by norm_num, by norm_num, ?_⟩ h
      rw [hax]
      rfl
  have happ := (solveWhere_spec Curve.demoCurve "x" (1/2) hspec).2.2 (1/2) [] hm hl
  refine happ.trans ?_
  norm_num [Curve.demoCurve, Curve.unitAxis, Curve.doubleAxis, roundQ, PRECISION]
  decide
